import Mathlib

/-!
Verification of the Flip 7 round engine (src/Card.js, src/Deck.js, src/Player.js,
src/Game.js) against its natural-language specification.

The JavaScript sources are shallowly embedded below:
* pure data (cards, the deck composition) becomes plain Lean data;
* the mutable game objects (`Player`, the deck / discard piles, the pending
  response queue of the external decision source) become an explicit
  `GameState` record threaded through each operation;
* JavaScript floating-point arithmetic in the probabilistic advisor is
  modelled with exact rationals (`ℚ`); presentation-only rounding
  (`toFixed`) is omitted — the source compares the *unrounded* expectation
  with the stay score, which is what is modelled;
* the asynchronous `ask` calls of the decision source are modelled by a
  queue of pending textual responses inside `GameState`; an `ask` on an
  empty queue means the engine is blocked forever, modelled as `none`;
* `Math.random`-driven shuffling is modelled by an externally supplied
  `shuffle : List Card → List Card` function (theorems that depend on the
  recycle-and-reshuffle path assume it permutes its input);
* the recursive `applyCardToPlayer` (second-chance replacement draw,
  flip-three sequence, deferred-action queue) is operationalised as a
  fuel-indexed task interpreter `runTask`; running out of fuel yields
  `none` and never occurs for the concrete runs evaluated here.
-/

namespace Flip7

/-! ## Cards (src/Card.js) -/

/-- The three action card kinds: `"Freeze"`, `"FlipThree"`, `"SecondChance"`. -/
inductive ActionKind where
  | Freeze
  | FlipThree
  | SecondChance
deriving DecidableEq, Repr

/-- Modifier card payloads: `"x2"` or a numeric `+v` bonus. -/
inductive ModKind where
  | x2
  | plus (v : Nat)
deriving DecidableEq, Repr

/-- A card: `type ∈ {"number", "action", "modifier"}` with its payload
(src/Card.js constructor). -/
inductive Card where
  | number (v : Nat)
  | action (a : ActionKind)
  | modifier (m : ModKind)
deriving DecidableEq, Repr

/-- `card.type === "action"` (src/Card.js field test). -/
def Card.isAction : Card → Bool
  | Card.action _ => true
  | _ => false

/-! ## Deck construction (src/Deck.js, `build`) -/

/-- `Deck.build` from src/Deck.js: for `i = 12` down to `1`, push `i` copies of
number `i`; push a single number `0`; push 3 copies of each action; push one
`x2` modifier and one each of `+2, +4, +6, +8, +10`. -/
def Deck.build : List Card :=
  (((List.range 12).map (fun k => 12 - k)).flatMap
      (fun i => List.replicate i (Card.number i)))
    ++ [Card.number 0]
    ++ ([ActionKind.Freeze, ActionKind.FlipThree, ActionKind.SecondChance].flatMap
          (fun a => List.replicate 3 (Card.action a)))
    ++ [Card.modifier ModKind.x2]
    ++ ([2, 4, 6, 8, 10].map (fun v => Card.modifier (ModKind.plus v)))

/-- Number of copies of `Number v` in a card list (the per-value tally the
advisor's single pass over `deck.cards` accumulates in `numberByValue`). -/
def cntNumber : List Card → Nat → Nat
  | [], _ => 0
  | Card.number w :: t, v => cntNumber t v + (if w = v then 1 else 0)
  | Card.action _ :: t, v => cntNumber t v
  | Card.modifier _ :: t, v => cntNumber t v

/-- Number of copies of the `+w` modifier in a card list (`modifierPlus`). -/
def cntPlus : List Card → Nat → Nat
  | [], _ => 0
  | Card.number _ :: t, w => cntPlus t w
  | Card.action _ :: t, w => cntPlus t w
  | Card.modifier ModKind.x2 :: t, w => cntPlus t w
  | Card.modifier (ModKind.plus u) :: t, w => cntPlus t w + (if u = w then 1 else 0)

/-- Number of copies of the `x2` modifier in a card list (`modifierX2`). -/
def cntX2 : List Card → Nat
  | [] => 0
  | Card.number _ :: t => cntX2 t
  | Card.action _ :: t => cntX2 t
  | Card.modifier ModKind.x2 :: t => cntX2 t + 1
  | Card.modifier (ModKind.plus _) :: t => cntX2 t

/-- Number of copies of action `a` in a card list. -/
def cntActionKind (l : List Card) (a : ActionKind) : Nat :=
  l.countP (fun c => decide (c = Card.action a))

/-- Total number of action cards in a card list (`actionTotal`). -/
def cntAction : List Card → Nat
  | [] => 0
  | Card.number _ :: t => cntAction t
  | Card.action _ :: t => cntAction t + 1
  | Card.modifier _ :: t => cntAction t

/-- Values (with multiplicity) of the number cards of a card list; its
`dedup` is the key set of the advisor's `numberByValue` map (the advisor's
sums are order-independent, so the key order is irrelevant). -/
def numVals : List Card → List Nat
  | [] => []
  | Card.number v :: t => v :: numVals t
  | Card.action _ :: t => numVals t
  | Card.modifier _ :: t => numVals t

/-- Values (with multiplicity) of the `+v` modifier cards of a card list;
its `dedup` is the key set of the advisor's `modifierPlus` map. -/
def plusVals : List Card → List Nat
  | [] => []
  | Card.number _ :: t => plusVals t
  | Card.action _ :: t => plusVals t
  | Card.modifier ModKind.x2 :: t => plusVals t
  | Card.modifier (ModKind.plus v) :: t => v :: plusVals t

/-- C1 counterexample: the deck built by `Deck.build` has 94 cards, not 93 as
claimed (78 cards for the values 1..12 plus the single 0 give 79 number
cards, not 78; the source's own comment says "Total = 94 cartes"). -/
theorem C1_counterexample :
    Deck.build.length = 94 ∧ ¬ (Deck.build.length = 93) := by
  decide

/-- C1 (amended): `Deck.build` produces exactly 94 cards: for every value `v`
in [1,12] exactly `v` `Number` cards of that value, exactly one `Number 0`
(79 number cards total), exactly 3 copies of each of the three action kinds,
exactly one `x2` modifier and one each of `+2, +4, +6, +8, +10`. -/
theorem C1_amended_deck_composition :
    Deck.build.length = 94
      ∧ (List.range 12).map (fun k => cntNumber Deck.build (k + 1))
          = (List.range 12).map (fun k => k + 1)
      ∧ cntNumber Deck.build 0 = 1
      ∧ (numVals Deck.build).length = 79
      ∧ cntActionKind Deck.build ActionKind.Freeze = 3
      ∧ cntActionKind Deck.build ActionKind.FlipThree = 3
      ∧ cntActionKind Deck.build ActionKind.SecondChance = 3
      ∧ cntX2 Deck.build = 1
      ∧ [2, 4, 6, 8, 10].map (cntPlus Deck.build) = [1, 1, 1, 1, 1] := by
  decide

/-! ## Player (src/Player.js) -/

/-- A player: the persistent `name`/`totalScore` plus the per-round state
fields set by `resetRoundState` (src/Player.js). -/
structure Player where
  name : String
  totalScore : Nat
  active : Bool
  eliminated : Bool
  numbers : List Nat
  hasX2 : Bool
  plusBonus : Nat
  secondChance : Bool
deriving DecidableEq, Repr

/-- `resetRoundState` (src/Player.js): restore all per-round fields to their
round-start defaults, keeping `name` and `totalScore`. -/
def Player.resetRoundState (p : Player) : Player :=
  { p with
    active := true
    eliminated := false
    numbers := []
    hasX2 := false
    plusBonus := 0
    secondChance := false }

/-- `hasNumber` (src/Player.js): the number is already in the player's row. -/
def Player.hasNumber (p : Player) (n : Nat) : Bool :=
  p.numbers.contains n

/-- `addNumber` (src/Player.js): push a (non-duplicate) number. -/
def Player.addNumber (p : Player) (n : Nat) : Player :=
  { p with numbers := p.numbers ++ [n] }

/-- `applyModifier` (src/Player.js): `x2` sets the doubler flag, `+v` adds to
the bonus accumulator. -/
def Player.applyModifier (p : Player) (m : ModKind) : Player :=
  match m with
  | ModKind.x2 => { p with hasX2 := true }
  | ModKind.plus v => { p with plusBonus := p.plusBonus + v }

/-- `countDistinctNumbers` (src/Player.js): length of the `numbers` list
(distinct by construction). -/
def Player.countDistinctNumbers (p : Player) : Nat :=
  p.numbers.length

/-- `computeRoundScore` (src/Player.js): 0 when eliminated, otherwise the sum
of the numbers, doubled by `x2`, plus the bonus accumulator, plus 15 when the
flip-7 bonus applies. -/
def Player.computeRoundScore (p : Player) (flip7Bonus : Bool) : Nat :=
  if p.eliminated then 0
  else
    let sumNumbers := p.numbers.sum
    let doubled := if p.hasX2 then sumNumbers * 2 else sumNumbers
    let base := doubled + p.plusBonus
    let bonus := if flip7Bonus then 15 else 0
    base + bonus

/-- The spec's worked example: non-eliminated, `numbers = {3,5}`,
`hasDoubler = true`, `bonus = 4`. -/
def examplePlayer : Player :=
  { name := "A", totalScore := 0, active := true, eliminated := false,
    numbers := [3, 5], hasX2 := true, plusBonus := 4, secondChance := false }

/-- C4: for every player state the round score is 0 when eliminated and
otherwise `sum(numbers) × (hasDoubler ? 2 : 1) + bonus + (bonusTrigger ? 15 : 0)`;
on the spec's example (`numbers = {3,5}`, doubler, bonus 4) this yields 20,
and 35 with the bonus-trigger term. -/
theorem C4_round_score :
    (∀ (p : Player) (b : Bool),
        p.computeRoundScore b
          = if p.eliminated then 0
            else p.numbers.sum * (if p.hasX2 then 2 else 1) + p.plusBonus
                  + (if b then 15 else 0))
      ∧ examplePlayer.computeRoundScore false = 20
      ∧ examplePlayer.computeRoundScore true = 35 := by
  refine ⟨fun p b => ?_, by decide, by decide⟩
  unfold Player.computeRoundScore
  cases he : p.eliminated <;> cases hx : p.hasX2 <;> simp [he, hx]

/-! ## Game state (src/Game.js) -/

/-- The two engine modes of src/Game.js (`options.mode`). -/
inductive Mode where
  | interactive
  | auto
deriving DecidableEq, Repr

/-- The mutable state of a `Game`: the player objects, the draw pile
(`deck.cards`, drawn from the array's end), the discard pile, and the queue of
pending textual responses of the external decision source (each `ask`
consumes one response; an empty queue means the engine is blocked). -/
structure GameState where
  players : List Player
  deckCards : List Card
  discardPile : List Card
  responses : List String
deriving DecidableEq, Repr

/-- Per-session configuration: the mode and the shuffle function standing in
for the `Math.random`-driven Fisher–Yates shuffle. -/
structure Config where
  mode : Mode
  shuffle : List Card → List Card

/-- Fallback player for out-of-range list reads (never reached on the indices
the theorems quantify over). -/
def defaultPlayer : Player :=
  { name := "", totalScore := 0, active := true, eliminated := false,
    numbers := [], hasX2 := false, plusBonus := 0, secondChance := false }

instance : Inhabited Player := ⟨defaultPlayer⟩

/-- Replace the `i`-th player by `f` of it (models mutation of the aliased
player object inside `this.players`). -/
def updAt : List Player → Nat → (Player → Player) → List Player
  | [], _, _ => []
  | p :: ps, 0, f => f p :: ps
  | p :: ps, Nat.succ n, f => p :: updAt ps n f

/-- `GameState` with the `i`-th player object mutated. -/
def GameState.updPlayer (s : GameState) (i : Nat) (f : Player → Player) : GameState :=
  { s with players := updAt s.players i f }

/-- `Game.discard` (src/Game.js): push a card onto the discard pile. -/
def GameState.discardCard (s : GameState) (c : Card) : GameState :=
  { s with discardPile := s.discardPile ++ [c] }

/-! ## Decision-source input parsing -/

/-- Accumulate the maximal leading run of decimal digits (the digit-consuming
loop of JavaScript's `parseInt(·, 10)`), stopping at the first non-digit. -/
def parseDigitsAux : List Char → Nat → Nat
  | [], acc => acc
  | c :: cs, acc =>
      if '0' ≤ c ∧ c ≤ '9' then parseDigitsAux cs (acc * 10 + (c.toNat - '0'.toNat))
      else acc

/-- JavaScript `parseInt(s, 10)`: skip leading whitespace, read an optional
sign, then the maximal digit prefix; `NaN` (here `none`) when no digit
follows. Trailing garbage is ignored, as in JavaScript. -/
def jsParseInt (s : String) : Option Int :=
  match s.data.dropWhile (fun c => c.isWhitespace) with
  | [] => none
  | '-' :: cs =>
      match cs with
      | c :: _ =>
          if '0' ≤ c ∧ c ≤ '9' then some (-(parseDigitsAux cs 0 : Int)) else none
      | [] => none
  | '+' :: cs =>
      match cs with
      | c :: _ =>
          if '0' ≤ c ∧ c ≤ '9' then some ((parseDigitsAux cs 0 : Int)) else none
      | [] => none
  | c :: cs =>
      if '0' ≤ c ∧ c ≤ '9' then some ((parseDigitsAux (c :: cs) 0 : Int)) else none

/-- ASCII lower-casing of one character (all that
`ans.trim().toLowerCase().startsWith("y")` needs). -/
def toLowerChar (c : Char) : Char :=
  if 'A' ≤ c ∧ c ≤ 'Z' then Char.ofNat (c.toNat + 32) else c

/-- `ans.trim().toLowerCase().startsWith("y")` from the second-chance
confirmation prompt of `applyCardToPlayer`. -/
def yesResponse (s : String) : Bool :=
  match ((s.data.dropWhile (fun c => c.isWhitespace)).reverse.dropWhile
      (fun c => c.isWhitespace)).reverse with
  | [] => false
  | c :: _ => decide (toLowerChar c = 'y')

/-! ## Target selection (src/Game.js, `chooseTargetPlayer`) -/

/-- Indices of the players passing `chooseTargetPlayer`'s filter
(`activeOnly ? p.active : true`); mirrors
`this.players.filter(...)`, keeping indices into `players` so the caller can
mutate the selected (aliased) player object. -/
def candidateIdxs (players : List Player) (activeOnly : Bool) : List Nat :=
  (List.range players.length).filter
    (fun i => !activeOnly || (players.getD i defaultPlayer).active)

/-- A response that `chooseTargetPlayer`'s validation accepts for `n`
candidates: parses to `k` with `1 ≤ k ≤ n`. -/
def validResponse (n : Nat) (r : String) : Bool :=
  match jsParseInt r with
  | some k => decide (1 ≤ k ∧ k ≤ (n : Int))
  | none => false

lemma validResponse_none (n : Nat) (r : String) (hp : jsParseInt r = none) :
    validResponse n r = false := by
  unfold validResponse
  rw [hp]

lemma validResponse_some (n : Nat) (r : String) (k : Int) (hp : jsParseInt r = some k) :
    validResponse n r = decide (1 ≤ k ∧ k ≤ (n : Int)) := by
  unfold validResponse
  rw [hp]

/-- One iteration of `chooseTargetPlayer`'s retry loop: accept the parsed
answer when `!Number.isNaN(k) && k >= 1 && k <= candidates.length`, otherwise
fall through to the continuation (the re-request). -/
def selStep (cands : List Nat) (parsed : Option Int) (rest : List String)
    (cont : Option (Nat × List String)) : Option (Nat × List String) :=
  match parsed with
  | some k =>
      if 1 ≤ k ∧ k ≤ (cands.length : Int) then
        some (cands.getD (k - 1).toNat 0, rest)
      else cont
  | none => cont

/-- The retry loop of `chooseTargetPlayer`: repeatedly `ask` until a valid
1-based index arrives; returns the selected candidate and the unconsumed
responses, or `none` when the response queue is exhausted (engine blocked). -/
def selectLoop (cands : List Nat) : List String → Option (Nat × List String)
  | [] => none
  | ans :: rest => selStep cands (jsParseInt ans) rest (selectLoop cands rest)

/-- `Game.chooseTargetPlayer` (src/Game.js): filter candidates; `null` when
none; auto-select a sole candidate without asking; otherwise run the retry
loop. Result: `none` = blocked forever; `some (none, rs)` = JS `null`;
`some (some i, rs)` = player index `i` selected, `rs` responses left. -/
def Game.chooseTargetPlayer (players : List Player) (activeOnly : Bool)
    (responses : List String) : Option (Option Nat × List String) :=
  let cands := candidateIdxs players activeOnly
  if cands.length = 0 then some (none, responses)
  else if cands.length = 1 then some (some (cands.getD 0 0), responses)
  else (selectLoop cands responses).map (fun ir => (some ir.1, ir.2))

lemma getD_mem_nat (l : List Nat) (n : Nat) (h : n < l.length) : l.getD n 0 ∈ l := by
  induction l generalizing n with
  | nil => simp at h
  | cons a t ih =>
    cases n with
    | zero => simp
    | succ m =>
      have hm : m < t.length := by simpa using h
      simpa using Or.inr (ih m hm)

lemma selectLoop_cons (cands : List Nat) (ans : String) (rest : List String) :
    selectLoop cands (ans :: rest)
      = selStep cands (jsParseInt ans) rest (selectLoop cands rest) := rfl

lemma selStep_some (cands : List Nat) (k : Int) (rest : List String)
    (cont : Option (Nat × List String)) :
    selStep cands (some k) rest cont
      = if 1 ≤ k ∧ k ≤ (cands.length : Int) then
          some (cands.getD (k - 1).toNat 0, rest)
        else cont := rfl

lemma selStep_none (cands : List Nat) (rest : List String)
    (cont : Option (Nat × List String)) :
    selStep cands none rest cont = cont := rfl

lemma selectLoop_step_valid (cands : List Nat) (r : String) (rest : List String) (k : Int)
    (hp : jsParseInt r = some k) (hk : 1 ≤ k ∧ k ≤ (cands.length : Int)) :
    selectLoop cands (r :: rest) = some (cands.getD (k - 1).toNat 0, rest) := by
  rw [selectLoop_cons, hp, selStep_some, if_pos hk]

lemma selectLoop_step_invalid (cands : List Nat) (r : String) (rest : List String)
    (hv : validResponse cands.length r = false) :
    selectLoop cands (r :: rest) = selectLoop cands rest := by
  rw [selectLoop_cons]
  cases hp : jsParseInt r with
  | none => rw [selStep_none]
  | some k =>
    rw [validResponse_some cands.length r k hp] at hv
    have hnk : ¬ (1 ≤ k ∧ k ≤ (cands.length : Int)) := of_decide_eq_false hv
    rw [selStep_some, if_neg hnk]

lemma selectLoop_sound (cands : List Nat) :
    ∀ (rs : List String) (i : Nat) (rs' : List String),
      selectLoop cands rs = some (i, rs') → i ∈ cands := by
  intro rs
  induction rs with
  | nil => intro i rs' h; simp [selectLoop] at h
  | cons r rest ih =>
    intro i rs' h
    by_cases hval : validResponse cands.length r = true
    · cases hp : jsParseInt r with
      | none =>
        rw [validResponse_none cands.length r hp] at hval
        exact absurd hval (by decide)
      | some k =>
        rw [validResponse_some cands.length r k hp] at hval
        have hk : 1 ≤ k ∧ k ≤ (cands.length : Int) := of_decide_eq_true hval
        rw [selectLoop_step_valid cands r rest k hp hk] at h
        injection h with h'
        injection h' with h1 h2
        subst h1
        obtain ⟨hk1, hk2⟩ := hk
        exact getD_mem_nat cands _ (by omega)
    · have hval' : validResponse cands.length r = false := by
        cases hvb : validResponse cands.length r
        · rfl
        · exact absurd hvb hval
      rw [selectLoop_step_invalid cands r rest hval'] at h
      exact ih i rs' h

lemma selectLoop_succeeds (cands : List Nat) :
    ∀ rs : List String, (∃ r ∈ rs, validResponse cands.length r = true) →
      ∃ i rs', selectLoop cands rs = some (i, rs') := by
  intro rs
  induction rs with
  | nil => rintro ⟨r, hr, -⟩; simp at hr
  | cons r0 rest ih =>
    rintro ⟨r, hr, hv⟩
    by_cases hval : validResponse cands.length r0 = true
    · cases hp : jsParseInt r0 with
      | none =>
        rw [validResponse_none cands.length r0 hp] at hval
        exact absurd hval (by decide)
      | some k =>
        rw [validResponse_some cands.length r0 k hp] at hval
        have hk : 1 ≤ k ∧ k ≤ (cands.length : Int) := of_decide_eq_true hval
        exact ⟨_, _, selectLoop_step_valid cands r0 rest k hp hk⟩
    · have hval' : validResponse cands.length r0 = false := by
        cases hvb : validResponse cands.length r0
        · rfl
        · exact absurd hvb hval
      rw [selectLoop_step_invalid cands r0 rest hval']
      apply ih
      rcases List.mem_cons.mp hr with h0 | h0
      · exact absurd (h0 ▸ hv) hval
      · exact ⟨r, h0, hv⟩

/-- Two inactive players (for the all-inactive selection scenario). -/
def pInactiveA : Player := { defaultPlayer with name := "A", active := false }

/-- Second inactive player. -/
def pInactiveB : Player := { defaultPlayer with name := "B", active := false }

/-- C3 counterexample: with every player inactive, the Freeze/FlipThree
target selection (`activeOnly = true`, as both callers pass) returns no
player at all — it does **not** fall back to selecting among all players,
although the pending response `"1"` would validly index that two-element
set. -/
theorem C3_counterexample :
    Game.chooseTargetPlayer [pInactiveA, pInactiveB] true ["1"] = some (none, ["1"])
      ∧ validResponse 2 "1" = true := by
  constructor
  · decide
  · decide

/-- C3 (amended): for every call to `chooseTargetPlayer`, the eligible set is
the players passing the `activeOnly` filter (the active players on the
Freeze/FlipThree calls); when it is empty no player is selected (`null`, a
no-op for the caller) rather than falling back to all players; a sole
candidate is auto-selected without consulting the decision source; otherwise
a 1-based index is requested and every invalid response (non-numeric or out
of range) leads to a re-request, a selected player is always inside the
eligible set (in particular active when `activeOnly`), and any valid response
in the queue makes the selection succeed. -/
theorem C3_amended_target_selection :
    (∀ (ps : List Player) (ao : Bool) (rs : List String) (i : Nat) (rs' : List String),
        Game.chooseTargetPlayer ps ao rs = some (some i, rs') → i ∈ candidateIdxs ps ao)
      ∧ (∀ (ps : List Player) (i : Nat), i ∈ candidateIdxs ps true →
            (ps.getD i defaultPlayer).active = true)
      ∧ (∀ (ps : List Player) (ao : Bool) (rs : List String),
            candidateIdxs ps ao = [] → Game.chooseTargetPlayer ps ao rs = some (none, rs))
      ∧ (∀ (ps : List Player) (ao : Bool) (rs : List String) (i : Nat),
            candidateIdxs ps ao = [i] →
            Game.chooseTargetPlayer ps ao rs = some (some i, rs))
      ∧ (∀ (ps : List Player) (ao : Bool) (r : String) (rest : List String),
            2 ≤ (candidateIdxs ps ao).length →
            validResponse (candidateIdxs ps ao).length r = false →
            Game.chooseTargetPlayer ps ao (r :: rest) = Game.chooseTargetPlayer ps ao rest)
      ∧ (∀ (ps : List Player) (ao : Bool) (rs : List String),
            candidateIdxs ps ao ≠ [] →
            (∃ r ∈ rs, validResponse (candidateIdxs ps ao).length r = true) →
            ∃ i rs', Game.chooseTargetPlayer ps ao rs = some (some i, rs')) := by
  refine ⟨?_, ?_, ?_, ?_, ?_, ?_⟩
  · intro ps ao rs i rs' h
    unfold Game.chooseTargetPlayer at h
    by_cases h0 : (candidateIdxs ps ao).length = 0
    · simp [h0] at h
    by_cases h1 : (candidateIdxs ps ao).length = 1
    · rw [if_neg h0, if_pos h1] at h
      injection h with h'
      have hi : i = (candidateIdxs ps ao).getD 0 0 := by
        have := congrArg Prod.fst h'
        have h2 := congrArg (fun o => Option.getD o 0) this
        simpa using h2.symm
      exact hi ▸ getD_mem_nat _ _ (by omega)
    · rw [if_neg h0, if_neg h1] at h
      cases hsel : selectLoop (candidateIdxs ps ao) rs with
      | none => rw [hsel] at h; simp at h
      | some ir =>
        rw [hsel] at h
        rw [show Option.map (fun ir => (some ir.1, ir.2))
            (some ir) = some (some ir.1, ir.2) from rfl] at h
        injection h with h'
        have hfst : some ir.1 = some i := congrArg Prod.fst h'
        injection hfst with hfst
        exact hfst ▸ selectLoop_sound _ rs ir.1 ir.2 (by rw [hsel])
  · intro ps i hi
    unfold candidateIdxs at hi
    have := List.of_mem_filter hi
    simpa using this
  · intro ps ao rs h
    unfold Game.chooseTargetPlayer
    simp [h]
  · intro ps ao rs i h
    unfold Game.chooseTargetPlayer
    rw [h]
    simp
  · intro ps ao r rest h2 hv
    unfold Game.chooseTargetPlayer
    have h0 : ¬ (candidateIdxs ps ao).length = 0 := by omega
    have h1 : ¬ (candidateIdxs ps ao).length = 1 := by omega
    rw [if_neg h0, if_neg h1, if_neg h0, if_neg h1,
      selectLoop_step_invalid _ _ _ hv]
  · intro ps ao rs hne hex
    unfold Game.chooseTargetPlayer
    by_cases h0 : (candidateIdxs ps ao).length = 0
    · exact absurd (List.length_eq_zero.mp h0) hne
    by_cases h1 : (candidateIdxs ps ao).length = 1
    · exact ⟨_, rs, by rw [if_neg h0, if_pos h1]⟩
    · obtain ⟨i, rs', hsel⟩ := selectLoop_succeeds _ rs hex
      exact ⟨i, rs', by rw [if_neg h0, if_neg h1, hsel]; rfl⟩

/-- Two active players (witness scenarios). -/
def pActiveA : Player := { defaultPlayer with name := "A" }

/-- Second active player. -/
def pActiveB : Player := { defaultPlayer with name := "B" }

theorem C3_witness :
    Game.chooseTargetPlayer [pActiveA, pInactiveB] true ["zzz"] = some (some 0, ["zzz"])
      ∧ Game.chooseTargetPlayer [pActiveA, pActiveB] true ["x", "2"]
          = Game.chooseTargetPlayer [pActiveA, pActiveB] true ["2"]
      ∧ (∃ i rs', Game.chooseTargetPlayer [pActiveA, pActiveB] true ["2"]
            = some (some i, rs')) := by
  refine ⟨?_, ?_, ?_⟩
  · exact C3_amended_target_selection.2.2.2.1 _ true ["zzz"] 0 (by decide)
  · exact C3_amended_target_selection.2.2.2.2.1 _ true "x" ["2"] (by decide) (by decide)
  · exact C3_amended_target_selection.2.2.2.2.2 _ true ["2"] (by decide)
      ⟨"2", by decide, by decide⟩

/-! ## Draw pile / discard pile (src/Game.js, `drawCard`) -/

/-- `Deck.draw` (src/Deck.js): pop from the end of the card array; `null`
when empty. -/
def Deck.draw (cards : List Card) : Option (Card × List Card) :=
  match cards.getLast? with
  | none => none
  | some c => some (c, cards.dropLast)

/-- `Game.drawCard` (src/Game.js): draw from the pile; when the pile is
empty and the discard pile is non-empty, move the discard pile into the draw
pile, clear it, reshuffle, and draw again; when both are empty, yield no
card. -/
def Game.drawCard (shuffle : List Card → List Card) (s : GameState) :
    Option Card × GameState :=
  match s.deckCards.getLast? with
  | some c => (some c, { s with deckCards := s.deckCards.dropLast })
  | none =>
      if s.discardPile.isEmpty then (none, s)
      else
        match (shuffle s.discardPile).getLast? with
        | some c =>
            (some c, { s with deckCards := (shuffle s.discardPile).dropLast, discardPile := [] })
        | none => (none, { s with deckCards := shuffle s.discardPile, discardPile := [] })

/-! ## The resolution engine (src/Game.js, `applyCardToPlayer`)

`applyCardToPlayer` is recursive in three ways: a granted Second Chance
forces an extra draw applied to the same player, Flip Three applies up to
three drawn cards to the target, and the deferred action cards collected
during a Flip Three are afterwards applied to the first active player.
These are operationalised as a single fuel-indexed interpreter over three
task shapes; every recursive call consumes one unit of fuel, so `none`
means "ran out of fuel or blocked on an `ask` with no pending response",
and any `some` result is a faithful run of the source. -/

/-- Pending work of the resolution engine: apply a card to a player
(`applyCardToPlayer`), run the remaining draws of a Flip Three sequence
(`for i in 1..3` loop), or drain the deferred-action queue
(`pendingActions` loop). -/
inductive EngineTask where
  | applyC (pi : Nat) (card : Card)
  | flip3 (k : Nat) (ti : Nat) (pending : List Card)
  | pend (cards : List Card)
deriving DecidableEq, Repr

/-- Result record of `applyCardToPlayer`: `{ alive, flip7 }`. -/
structure ApplyRes where
  alive : Bool
  flip7 : Bool
deriving DecidableEq, Repr

/-- The Freeze effect on the chosen target (src/Game.js lines 392–397):
deactivate, eliminate, and clear the whole round contribution. -/
def freezeClear (q : Player) : Player :=
  { q with
    active := false
    eliminated := true
    numbers := []
    hasX2 := false
    plusBonus := 0
    secondChance := false }

/-- The duplicate-number elimination of `applyCardToPlayer`: deactivate and
eliminate the player, discard the duplicate, report `alive: false`. -/
def eliminateStep (s : GameState) (pi : Nat) (card : Card) :
    Option (GameState × ApplyRes) :=
  some ((s.updPlayer pi
      (fun q => { q with active := false, eliminated := true })).discardCard card,
    { alive := false, flip7 := false })

/-- The second-chance usage decision: in interactive mode `ask` the player
(`y…` = use), consuming one response (`none` when the queue is empty, i.e.
the engine would wait forever); in auto mode `use = true` without asking. -/
def secondChanceUse (mode : Mode) (s : GameState) : Option (Bool × GameState) :=
  if mode = Mode.interactive then
    match s.responses with
    | [] => none
    | r :: rest => some (yesResponse r, { s with responses := rest })
  else some (true, s)

/-- Resolution of the second-chance usage answer (src/Game.js lines
342–358): `use = true` consumes the second chance and discards the
duplicate; `use = false` falls through to elimination; `none` means the
engine is blocked awaiting the answer. -/
def scResolve (pi : Nat) (card : Card) :
    Option (Bool × GameState) → Option (GameState × ApplyRes)
  | none => none
  | some (use, s1) =>
      if use then
        some ((s1.updPlayer pi (fun q => { q with secondChance := false })).discardCard card,
          { alive := true, flip7 := false })
      else eliminateStep s1 pi card

/-- Resolution of the Freeze target choice (src/Game.js lines 388–401):
no target = no-op; otherwise clear the target's round. -/
def freezeResolve (s0 : GameState) :
    Option (Option Nat × List String) → Option (GameState × ApplyRes)
  | none => none
  | some (none, resp) => some ({ s0 with responses := resp }, { alive := true, flip7 := false })
  | some (some ti, resp) =>
      some (({ s0 with responses := resp }).updPlayer ti freezeClear,
        { alive := true, flip7 := false })

/-- Resolution of the FlipThree target choice (src/Game.js lines 425–427):
no target = no-op; otherwise run the three-draw sequence. -/
def flip3Start (recurse : GameState → EngineTask → Option (GameState × ApplyRes))
    (s0 : GameState) :
    Option (Option Nat × List String) → Option (GameState × ApplyRes)
  | none => none
  | some (none, resp) => some ({ s0 with responses := resp }, { alive := true, flip7 := false })
  | some (some ti, resp) => recurse { s0 with responses := resp } (EngineTask.flip3 3 ti [])

/-- The mandatory extra draw after a granted Second Chance (src/Game.js
lines 408–412): apply the drawn card recursively, or return when the supply
is dry. -/
def scExtra (recurse : GameState → EngineTask → Option (GameState × ApplyRes))
    (pi : Nat) : Option Card × GameState → Option (GameState × ApplyRes)
  | (some extra, s2) => recurse s2 (EngineTask.applyC pi extra)
  | (none, s2) => some (s2, { alive := true, flip7 := false })

/-- The transfer of a redundant Second Chance to the first active player
lacking one (src/Game.js lines 413–422); discarded when nobody qualifies. -/
def scTransfer (s0 : GameState) : Option Nat → Option (GameState × ApplyRes)
  | some oi =>
      some (s0.updPlayer oi (fun q => { q with secondChance := true }),
        { alive := true, flip7 := false })
  | none => some (s0, { alive := true, flip7 := false })

/-- Continuation after applying one FlipThree draw to the target
(src/Game.js lines 444–446): stop on elimination (drain deferred queue),
propagate a flip-7 immediately, otherwise keep drawing. -/
def flip3Apply (recurse : GameState → EngineTask → Option (GameState × ApplyRes))
    (k ti : Nat) (pending : List Card) :
    Option (GameState × ApplyRes) → Option (GameState × ApplyRes)
  | none => none
  | some (s2, res) =>
      if res.alive = false then recurse s2 (EngineTask.pend pending)
      else if res.flip7 then some (s2, { alive := true, flip7 := true })
      else recurse s2 (EngineTask.flip3 k ti pending)

/-- One FlipThree draw (src/Game.js lines 435–447): a dry pile ends the
sequence; a drawn action card is discarded and deferred; any other card is
applied to the target. -/
def flip3Draw (recurse : GameState → EngineTask → Option (GameState × ApplyRes))
    (k ti : Nat) (pending : List Card) :
    Option Card × GameState → Option (GameState × ApplyRes)
  | (none, s1) => recurse s1 (EngineTask.pend pending)
  | (some c, s1) =>
      if c.isAction then recurse (s1.discardCard c) (EngineTask.flip3 k ti (pending ++ [c]))
      else flip3Apply recurse k ti pending (recurse s1 (EngineTask.applyC ti c))

/-- Continuation after applying one deferred action to its carrier
(src/Game.js lines 455–456): propagate a flip-7, otherwise continue
draining. -/
def pendApply (recurse : GameState → EngineTask → Option (GameState × ApplyRes))
    (rest : List Card) :
    Option (GameState × ApplyRes) → Option (GameState × ApplyRes)
  | none => none
  | some (s1, res) =>
      if res.flip7 then some (s1, { alive := true, flip7 := true })
      else recurse s1 (EngineTask.pend rest)

/-- Carrier lookup for one deferred action (src/Game.js lines 452–453):
stop when no player is active, otherwise apply to the first active player. -/
def pendFind (recurse : GameState → EngineTask → Option (GameState × ApplyRes))
    (s : GameState) (c : Card) (rest : List Card) :
    Option Nat → Option (GameState × ApplyRes)
  | none => some (s, { alive := true, flip7 := false })
  | some ci => pendApply recurse rest (recurse s (EngineTask.applyC ci c))

/-- The `applyCardToPlayer` body (src/Game.js lines 335–466), with the
recursive calls abstracted into the continuation `recurse` (instantiated
with one unit less fuel by `runTask`). -/
def applyStep (cfg : Config)
    (recurse : GameState → EngineTask → Option (GameState × ApplyRes))
    (s : GameState) (pi : Nat) (card : Card) : Option (GameState × ApplyRes) :=
  let p := s.players.getD pi defaultPlayer
  match card with
  | Card.number v =>
      if p.hasNumber v then
        if p.secondChance then scResolve pi card (secondChanceUse cfg.mode s)
        else eliminateStep s pi card
      else
        let s1 := s.updPlayer pi (fun q => q.addNumber v)
        let s2 := s1.discardCard card
        some (s2,
          { alive := true,
            flip7 := decide ((s1.players.getD pi defaultPlayer).countDistinctNumbers ≥ 7) })
  | Card.modifier m =>
      some ((s.updPlayer pi (fun q => q.applyModifier m)).discardCard card,
        { alive := true, flip7 := false })
  | Card.action a =>
      let s0 := s.discardCard card
      match a with
      | ActionKind.Freeze =>
          freezeResolve s0 (Game.chooseTargetPlayer s0.players true s0.responses)
      | ActionKind.SecondChance =>
          if p.secondChance = false then
            let s1 := s0.updPlayer pi (fun q => { q with secondChance := true })
            scExtra recurse pi (Game.drawCard cfg.shuffle s1)
          else
            scTransfer s0 (s0.players.findIdx? (fun q => q.active && !q.secondChance))
      | ActionKind.FlipThree =>
          flip3Start recurse s0 (Game.chooseTargetPlayer s0.players true s0.responses)

/-- One draw of the Flip Three `for i in 1..3` loop (src/Game.js lines
432–448): stop when the target is no longer active or the pile is dry
(drain the deferred queue), defer drawn action cards, apply number/modifier
cards to the target, stopping on elimination or a flip-7. -/
def flip3Step (cfg : Config)
    (recurse : GameState → EngineTask → Option (GameState × ApplyRes))
    (k : Nat) (s : GameState) (ti : Nat) (pending : List Card) :
    Option (GameState × ApplyRes) :=
  match k with
  | 0 => recurse s (EngineTask.pend pending)
  | Nat.succ k =>
      if (s.players.getD ti defaultPlayer).active = false then
        recurse s (EngineTask.pend pending)
      else flip3Draw recurse k ti pending (Game.drawCard cfg.shuffle s)

/-- One step of the deferred-action loop after a Flip Three (src/Game.js
lines 450–457). -/
def pendStep (recurse : GameState → EngineTask → Option (GameState × ApplyRes))
    (s : GameState) : List Card → Option (GameState × ApplyRes)
  | [] => some (s, { alive := true, flip7 := false })
  | c :: rest => pendFind recurse s c rest (s.players.findIdx? (fun q => q.active))

/-- The fuel-indexed interpreter tying the three steps together; every
recursive call costs one unit of fuel. -/
def runTask (cfg : Config) : Nat → GameState → EngineTask → Option (GameState × ApplyRes)
  | 0, _, _ => none
  | Nat.succ fuel, s, EngineTask.applyC pi card =>
      applyStep cfg (runTask cfg fuel) s pi card
  | Nat.succ fuel, s, EngineTask.flip3 k ti pending =>
      flip3Step cfg (runTask cfg fuel) k s ti pending
  | Nat.succ fuel, s, EngineTask.pend cards =>
      pendStep (runTask cfg fuel) s cards

/-- `Game.applyCardToPlayer` (src/Game.js): apply a drawn card to a player,
with the given fuel budget for the recursive draws. -/
def Game.applyCardToPlayer (cfg : Config) (fuel : Nat) (s : GameState) (pi : Nat)
    (card : Card) : Option (GameState × ApplyRes) :=
  runTask cfg fuel s (EngineTask.applyC pi card)

/-- The hit branch of `Game.playRound` (src/Game.js lines 536–549): draw a
card — when none is available the player is forced inactive for the rest of
the round (`p.active = false`) and no card is applied — otherwise apply it.
The second component is `none` exactly in the forced-inactive case. -/
def Game.hitStep (cfg : Config) (fuel : Nat) (s : GameState) (pi : Nat) :
    Option (GameState × Option ApplyRes) :=
  match Game.drawCard cfg.shuffle s with
  | (none, s1) => some (s1.updPlayer pi (fun q => { q with active := false }), none)
  | (some c, s1) =>
      match Game.applyCardToPlayer cfg fuel s1 pi c with
      | none => none
      | some (s2, res) => some (s2, some res)

lemma runTask_succ_applyC (cfg : Config) (fuel : Nat) (s : GameState) (pi : Nat)
    (card : Card) :
    runTask cfg (fuel + 1) s (EngineTask.applyC pi card)
      = applyStep cfg (runTask cfg fuel) s pi card := rfl

lemma runTask_succ_flip3 (cfg : Config) (fuel : Nat) (s : GameState) (k ti : Nat)
    (pending : List Card) :
    runTask cfg (fuel + 1) s (EngineTask.flip3 k ti pending)
      = flip3Step cfg (runTask cfg fuel) k s ti pending := rfl

lemma runTask_succ_pend (cfg : Config) (fuel : Nat) (s : GameState)
    (cards : List Card) :
    runTask cfg (fuel + 1) s (EngineTask.pend cards)
      = pendStep (runTask cfg fuel) s cards := rfl

lemma getD_eq_of_getElem? (l : List Player) (i : Nat) (p : Player)
    (h : l[i]? = some p) : l.getD i defaultPlayer = p := by
  induction l generalizing i with
  | nil => simp at h
  | cons a t ih =>
    cases i with
    | zero =>
      simp only [List.getElem?_cons_zero, Option.some.injEq] at h
      simp [h]
    | succ n => simpa using ih n (by simpa using h)

lemma getElem?_updAt (l : List Player) (i : Nat) (f : Player → Player) :
    (updAt l i f)[i]? = l[i]?.map f := by
  induction l generalizing i with
  | nil => cases i <;> simp [updAt]
  | cons a t ih =>
    cases i with
    | zero => simp [updAt]
    | succ n => simpa [updAt] using ih n

/-- Interactive-mode, shuffle-free configuration for concrete runs. -/
def cfgInteractiveId : Config := { mode := Mode.interactive, shuffle := id }

/-- Auto-mode, shuffle-free configuration for concrete runs. -/
def cfgAutoId : Config := { mode := Mode.auto, shuffle := id }

/-- A player holding a 5 and a second chance. -/
def pSecond : Player := { defaultPlayer with name := "A", numbers := [5], secondChance := true }

/-- State for the duplicate-with-second-chance scenario: the decision source
declines with `"n"`. -/
def sDecline : GameState :=
  { players := [pSecond], deckCards := [], discardPile := [], responses := ["n"] }

/-- C2 counterexample: in interactive mode the engine *asks* before using a
second chance; when the decision source answers `"n"`, the duplicate 5 does
not consume the second chance (it stays `true`), and the player is
eliminated (`active := false`, `eliminated := true`) with `alive: false` —
so the claimed behaviour does not hold for every run regardless of the
decision source's responses. -/
theorem C2_counterexample :
    Game.applyCardToPlayer cfgInteractiveId 1 sDecline 0 (Card.number 5)
      = some ({ players := [{ pSecond with active := false, eliminated := true }],
                deckCards := [], discardPile := [Card.number 5], responses := [] },
              { alive := false, flip7 := false }) := by
  decide

/-- C2 (amended): for every player and drawn duplicate number, if the player
holds a second chance and the use is confirmed — automatically in auto mode,
or by a `y…` response of the decision source in interactive mode — then
`apply` consumes the second chance (`secondChance := false` is the only
change to the player), discards the card, leaves the deck pile untouched,
and returns `{alive: true, triggeredBonusEvent: false}`; in auto mode no
response is consumed. -/
theorem C2_amended_second_chance_duplicate (cfg : Config) (fuel : Nat)
    (s : GameState) (pi : Nat) (p : Player) (v : Nat)
    (hp : s.players[pi]? = some p)
    (hdup : p.hasNumber v = true)
    (hsc : p.secondChance = true)
    (hyes : cfg.mode = Mode.interactive →
      ∃ r rest, s.responses = r :: rest ∧ yesResponse r = true) :
    ∃ rs',
      Game.applyCardToPlayer cfg (fuel + 1) s pi (Card.number v)
          = some ((({ s with responses := rs' }).updPlayer pi
                (fun q => { q with secondChance := false })).discardCard (Card.number v),
              { alive := true, flip7 := false })
        ∧ ((({ s with responses := rs' }).updPlayer pi
              (fun q => { q with secondChance := false })).discardCard
                (Card.number v)).players[pi]? = some { p with secondChance := false }
        ∧ ((({ s with responses := rs' }).updPlayer pi
              (fun q => { q with secondChance := false })).discardCard
                (Card.number v)).deckCards = s.deckCards
        ∧ (cfg.mode = Mode.auto → rs' = s.responses) := by
  have hgd : s.players.getD pi defaultPlayer = p := getD_eq_of_getElem? s.players pi p hp
  have hmem : ((({ s with responses := s.responses }).updPlayer pi
      (fun q => { q with secondChance := false })).discardCard
        (Card.number v)).players[pi]? = some { p with secondChance := false } := by
    simp [GameState.updPlayer, GameState.discardCard, getElem?_updAt, hp]
  cases hmode : cfg.mode with
  | auto =>
      refine ⟨s.responses, ?_, hmem, rfl, fun _ => rfl⟩
      unfold Game.applyCardToPlayer
      rw [runTask_succ_applyC]
      simp only [applyStep, hgd, hdup, hsc, if_true, secondChanceUse, hmode]
      simp [scResolve]
  | interactive =>
      obtain ⟨r, rest, hresp, hyr⟩ := hyes hmode
      refine ⟨rest, ?_, ?_, rfl, fun hauto => absurd hauto (by decide)⟩
      · unfold Game.applyCardToPlayer
        rw [runTask_succ_applyC]
        simp only [applyStep, hgd, hdup, hsc, if_true, secondChanceUse, hmode]
        simp [scResolve, hresp, hyr]
      · simp [GameState.updPlayer, GameState.discardCard, getElem?_updAt, hp]

theorem C2_witness :
    ∃ rs',
      Game.applyCardToPlayer cfgAutoId 1
            { sDecline with responses := [] } 0 (Card.number 5)
          = some ((({ { sDecline with responses := [] } with responses := rs' }).updPlayer 0
                (fun q => { q with secondChance := false })).discardCard (Card.number 5),
              { alive := true, flip7 := false })
        ∧ ((({ { sDecline with responses := [] } with responses := rs' }).updPlayer 0
              (fun q => { q with secondChance := false })).discardCard
                (Card.number 5)).players[0]? = some { pSecond with secondChance := false }
        ∧ ((({ { sDecline with responses := [] } with responses := rs' }).updPlayer 0
              (fun q => { q with secondChance := false })).discardCard
                (Card.number 5)).deckCards = { sDecline with responses := [] }.deckCards
        ∧ (cfgAutoId.mode = Mode.auto → rs' = { sDecline with responses := [] }.responses) :=
  C2_amended_second_chance_duplicate cfgAutoId 0 { sDecline with responses := [] } 0
    pSecond 5 (by decide) (by decide) (by decide)
    (fun h => absurd h (by decide))

lemma filter_range_singleton (n pi : Nat) (p : Nat → Bool) (hpi : pi < n)
    (htrue : p pi = true) (hfalse : ∀ j, j < n → j ≠ pi → p j = false) :
    (List.range n).filter p = [pi] := by
  induction n with
  | zero => omega
  | succ m ih =>
    rw [List.range_succ, List.filter_append]
    by_cases hm : pi = m
    · subst hm
      have h1 : (List.range pi).filter p = [] := by
        refine List.filter_eq_nil_iff.mpr ?_
        intro a ha
        have haa : a < pi := List.mem_range.mp ha
        simp [hfalse a (by omega) (by omega)]
      simp [h1, htrue]
    · have h2 : p m = false := hfalse m (by omega) (by omega)
      rw [ih (by omega) (fun j hj hne => hfalse j (by omega) hne)]
      simp [h2]

/-- C10: a player who is active is always inside the candidate set of their
own Freeze / FlipThree target selection; in particular, when the acting
player is the *only* active player, the selection auto-picks the acting
player, so a drawn Freeze eliminates the player who drew it: numbers,
modifiers, and second chance cleared, `active := false`,
`eliminated := true`, with result `{alive: true, flip7: false}` and no
response consumed. -/
theorem C10_freeze_self_target :
    (∀ (ps : List Player) (i : Nat), i < ps.length →
        (ps.getD i defaultPlayer).active = true → i ∈ candidateIdxs ps true)
      ∧ (∀ (cfg : Config) (fuel : Nat) (s : GameState) (pi : Nat),
          pi < s.players.length →
          (s.players.getD pi defaultPlayer).active = true →
          (∀ j, j < s.players.length → j ≠ pi →
            (s.players.getD j defaultPlayer).active = false) →
          Game.applyCardToPlayer cfg (fuel + 1) s pi (Card.action ActionKind.Freeze)
            = some ((s.discardCard (Card.action ActionKind.Freeze)).updPlayer pi freezeClear,
                { alive := true, flip7 := false })) := by
  constructor
  · intro ps i hlt hact
    unfold candidateIdxs
    refine List.mem_filter.mpr ⟨List.mem_range.mpr hlt, ?_⟩
    simpa using hact
  · intro cfg fuel s pi hlen hact hoth
    have hpl : (s.discardCard (Card.action ActionKind.Freeze)).players = s.players := rfl
    have hcand : candidateIdxs s.players true = [pi] := by
      unfold candidateIdxs
      refine filter_range_singleton s.players.length pi _ hlen ?_ ?_
      · simpa using hact
      · intro j hj hne
        simpa using hoth j hj hne
    have hchoose :
        Game.chooseTargetPlayer s.players true s.responses
          = some (some pi, s.responses) := by
      unfold Game.chooseTargetPlayer
      rw [hcand]
      simp
    unfold Game.applyCardToPlayer
    rw [runTask_succ_applyC]
    simp only [applyStep, hpl]
    rw [show (s.discardCard (Card.action ActionKind.Freeze)).responses = s.responses from rfl,
      hchoose]
    rfl

/-- Single-active-player state for the Freeze self-target witness. -/
def sSolo : GameState :=
  { players := [pActiveA, pInactiveB]
    deckCards := []
    discardPile := []
    responses := [] }

theorem C10_witness :
    0 ∈ candidateIdxs [pActiveA, pInactiveB] true
      ∧ Game.applyCardToPlayer cfgAutoId 1 sSolo 0 (Card.action ActionKind.Freeze)
          = some ((sSolo.discardCard (Card.action ActionKind.Freeze)).updPlayer 0 freezeClear,
              { alive := true, flip7 := false }) := by
  constructor
  · exact C10_freeze_self_target.1 [pActiveA, pInactiveB] 0 (by decide) (by decide)
  · exact C10_freeze_self_target.2 cfgAutoId 0 sSolo 0 (by decide) (by decide) (by decide)

/-! ## The eliminated-implies-inactive invariant (C7) -/


/-- The spec invariant for one player: `eliminated` implies not `active`. -/
def playerOK (p : Player) : Prop := p.eliminated = true → p.active = false

instance (p : Player) : Decidable (playerOK p) := by
  unfold playerOK
  infer_instance

/-- The invariant over a player list. -/
def playersOK (l : List Player) : Prop := ∀ p ∈ l, playerOK p

instance (l : List Player) : Decidable (playersOK l) :=
  List.decidableBAll playerOK l

lemma playersOK_updAt (f : Player → Player) (hf : ∀ q, playerOK q → playerOK (f q)) :
    ∀ (l : List Player) (i : Nat), playersOK l → playersOK (updAt l i f) := by
  intro l
  induction l with
  | nil => intro i h; simpa [updAt] using h
  | cons a t ihl =>
    intro i h
    cases i with
    | zero =>
      intro p hp
      rcases List.mem_cons.mp hp with h0 | h0
      · rw [h0]; exact hf a (h a (List.mem_cons_self a t))
      · exact h p (List.mem_cons_of_mem a h0)
    | succ n =>
      intro p hp
      rcases List.mem_cons.mp hp with h0 | h0
      · rw [h0]; exact h a (List.mem_cons_self a t)
      · exact ihl n (fun q hq => h q (List.mem_cons_of_mem a hq)) p h0

lemma drawCard_players (sh : List Card → List Card) (s : GameState) :
    (Game.drawCard sh s).2.players = s.players := by
  unfold Game.drawCard
  split
  · rfl
  · split
    · rfl
    · split
      · rfl
      · rfl

lemma secondChanceUse_players (m : Mode) (s : GameState) (use : Bool) (s1 : GameState)
    (h : secondChanceUse m s = some (use, s1)) : s1.players = s.players := by
  unfold secondChanceUse at h
  split at h
  · cases hr : s.responses with
    | nil => rw [hr] at h; simp at h
    | cons r rest =>
      rw [hr] at h
      simp only [Option.some.injEq, Prod.mk.injEq] at h
      rw [← h.2]
  · simp only [Option.some.injEq, Prod.mk.injEq] at h
    rw [← h.2]

lemma runTask_playersOK (cfg : Config) :
    ∀ (fuel : Nat) (s : GameState) (t : EngineTask) (out : GameState × ApplyRes),
      playersOK s.players → runTask cfg fuel s t = some out → playersOK out.1.players := by
  intro fuel
  induction fuel with
  | zero => intro s t out hin h; simp [runTask] at h
  | succ fuel ih =>
    intro s t out hin h
    cases t with
    | applyC pi card =>
      rw [runTask_succ_applyC] at h
      cases card with
      | number v =>
        simp only [applyStep] at h
        split at h
        · split at h
          · cases hscu : secondChanceUse cfg.mode s with
            | none => rw [hscu] at h; simp [scResolve] at h
            | some us =>
              obtain ⟨use, s1⟩ := us
              have hs1 : s1.players = s.players := secondChanceUse_players _ _ _ _ hscu
              rw [hscu] at h
              simp only [scResolve] at h
              split at h
              · injection h with h'
                rw [← h']
                simp only [GameState.discardCard, GameState.updPlayer, hs1]
                exact playersOK_updAt (fun q => { q with secondChance := false })
                  (fun q hq => hq) s.players pi hin
              · unfold eliminateStep at h
                injection h with h'
                rw [← h']
                simp only [GameState.discardCard, GameState.updPlayer, hs1]
                exact playersOK_updAt _ (fun q _ _ => rfl) s.players pi hin
          · unfold eliminateStep at h
            injection h with h'
            rw [← h']
            simp only [GameState.discardCard, GameState.updPlayer]
            exact playersOK_updAt _ (fun q _ _ => rfl) s.players pi hin
        · injection h with h'
          rw [← h']
          simp only [GameState.discardCard, GameState.updPlayer]
          exact playersOK_updAt (fun q => q.addNumber v) (fun q hq => hq) s.players pi hin
      | modifier m =>
        simp only [applyStep] at h
        injection h with h'
        rw [← h']
        simp only [GameState.discardCard, GameState.updPlayer]
        exact playersOK_updAt (fun q => q.applyModifier m)
          (fun q hq => by cases m <;> exact hq) s.players pi hin
      | action a =>
        cases a with
        | Freeze =>
          simp only [applyStep] at h
          cases hct : Game.chooseTargetPlayer
              (s.discardCard (Card.action ActionKind.Freeze)).players true
              (s.discardCard (Card.action ActionKind.Freeze)).responses with
          | none => rw [hct] at h; simp [freezeResolve] at h
          | some tr =>
            obtain ⟨target, resp⟩ := tr
            rw [hct] at h
            cases target with
            | none =>
              simp only [freezeResolve] at h
              injection h with h'
              rw [← h']
              exact hin
            | some ti =>
              simp only [freezeResolve] at h
              injection h with h'
              rw [← h']
              simp only [GameState.updPlayer]
              exact playersOK_updAt freezeClear (fun q _ _ => rfl) s.players ti hin
        | SecondChance =>
          simp only [applyStep] at h
          split at h
          · cases hdr : Game.drawCard cfg.shuffle
                ((s.discardCard (Card.action ActionKind.SecondChance)).updPlayer pi
                  (fun q => { q with secondChance := true })) with
            | mk oc s2 =>
              have hs2 : s2.players
                  = updAt s.players pi (fun q => { q with secondChance := true }) := by
                have hdp := drawCard_players cfg.shuffle
                  ((s.discardCard (Card.action ActionKind.SecondChance)).updPlayer pi
                    (fun q => { q with secondChance := true }))
                rw [hdr] at hdp
                exact hdp
              have hOK2 : playersOK s2.players := by
                rw [hs2]
                exact playersOK_updAt (fun q => { q with secondChance := true })
                  (fun q hq => hq) s.players pi hin
              rw [hdr] at h
              cases oc with
              | some extra =>
                simp only [scExtra] at h
                exact ih s2 _ out hOK2 h
              | none =>
                simp only [scExtra] at h
                injection h with h'
                rw [← h']
                exact hOK2
          · cases hfi : (s.discardCard (Card.action ActionKind.SecondChance)).players.findIdx?
                (fun q => q.active && !q.secondChance) with
            | some oi =>
              rw [hfi] at h
              simp only [scTransfer] at h
              injection h with h'
              rw [← h']
              simp only [GameState.updPlayer]
              exact playersOK_updAt (fun q => { q with secondChance := true })
                (fun q hq => hq) s.players oi hin
            | none =>
              rw [hfi] at h
              simp only [scTransfer] at h
              injection h with h'
              rw [← h']
              exact hin
        | FlipThree =>
          simp only [applyStep] at h
          cases hct : Game.chooseTargetPlayer
              (s.discardCard (Card.action ActionKind.FlipThree)).players true
              (s.discardCard (Card.action ActionKind.FlipThree)).responses with
          | none => rw [hct] at h; simp [flip3Start] at h
          | some tr =>
            obtain ⟨target, resp⟩ := tr
            rw [hct] at h
            cases target with
            | none =>
              simp only [flip3Start] at h
              injection h with h'
              rw [← h']
              exact hin
            | some ti =>
              simp only [flip3Start] at h
              refine ih _ _ out ?_ h
              exact hin
    | flip3 k ti pending =>
      rw [runTask_succ_flip3] at h
      cases k with
      | zero =>
        simp only [flip3Step] at h
        exact ih s _ out hin h
      | succ k =>
        simp only [flip3Step] at h
        split at h
        · exact ih s _ out hin h
        · cases hdr : Game.drawCard cfg.shuffle s with
          | mk oc s1 =>
            have hs1 : s1.players = s.players := by
              have hdp := drawCard_players cfg.shuffle s
              rw [hdr] at hdp
              exact hdp
            have hOK1 : playersOK s1.players := by rw [hs1]; exact hin
            rw [hdr] at h
            cases oc with
            | none =>
              simp only [flip3Draw] at h
              exact ih s1 _ out hOK1 h
            | some c =>
              simp only [flip3Draw] at h
              split at h
              · refine ih _ _ out ?_ h
                exact hOK1
              · cases hrun : runTask cfg fuel s1 (EngineTask.applyC ti c) with
                | none => rw [hrun] at h; simp [flip3Apply] at h
                | some sr =>
                  obtain ⟨s2, res⟩ := sr
                  have hOK2 : playersOK s2.players := ih s1 _ (s2, res) hOK1 hrun
                  rw [hrun] at h
                  simp only [flip3Apply] at h
                  split at h
                  · exact ih s2 _ out hOK2 h
                  · split at h
                    · injection h with h'
                      rw [← h']
                      exact hOK2
                    · exact ih s2 _ out hOK2 h
    | pend cards =>
      rw [runTask_succ_pend] at h
      cases cards with
      | nil =>
        simp only [pendStep] at h
        injection h with h'
        rw [← h']
        exact hin
      | cons c rest =>
        simp only [pendStep] at h
        cases hfi : s.players.findIdx? (fun q => q.active) with
        | none =>
          rw [hfi] at h
          simp only [pendFind] at h
          injection h with h'
          rw [← h']
          exact hin
        | some ci =>
          rw [hfi] at h
          simp only [pendFind] at h
          cases hrun : runTask cfg fuel s (EngineTask.applyC ci c) with
          | none => rw [hrun] at h; simp [pendApply] at h
          | some sr =>
            obtain ⟨s1, res⟩ := sr
            have hOK1 : playersOK s1.players := ih s _ (s1, res) hin hrun
            rw [hrun] at h
            simp only [pendApply] at h
            split at h
            · injection h with h'
              rw [← h']
              exact hOK1
            · exact ih s1 _ out hOK1 h

/-- C7: the implication `eliminated ⇒ ¬active` holds after the round-start
reset, is preserved by the stay transition (`active := false`), and is
preserved by every successful run of `applyCardToPlayer` — duplicate
elimination, Freeze, Second Chance, Flip Three, in all branches; a player
who stayed is inactive but not eliminated, so the converse indeed need not
hold. -/
theorem C7_eliminated_not_active_invariant :
    (∀ p : Player, playerOK p.resetRoundState)
      ∧ (∀ (l : List Player) (i : Nat), playersOK l →
          playersOK (updAt l i (fun q => { q with active := false })))
      ∧ (∀ (cfg : Config) (fuel : Nat) (s : GameState) (pi : Nat) (card : Card)
          (out : GameState × ApplyRes),
          playersOK s.players →
          Game.applyCardToPlayer cfg fuel s pi card = some out →
          playersOK out.1.players) := by
  refine ⟨?_, ?_, ?_⟩
  · intro p
    simp [Player.resetRoundState, playerOK]
  · exact fun l i h =>
      playersOK_updAt (fun q => { q with active := false }) (fun q _ _ => rfl) l i h
  · intro cfg fuel s pi card out hin h
    exact runTask_playersOK cfg fuel s _ out hin h

/-- The state sDecline after the declined second chance (C2 counterexample
run): used to witness the invariant preservation. -/
def sDeclineAfter : GameState :=
  { players := [{ pSecond with active := false, eliminated := true }]
    deckCards := []
    discardPile := [Card.number 5]
    responses := [] }

theorem C7_witness :
    playersOK (updAt [pActiveA, pInactiveB] 0 (fun q => { q with active := false }))
      ∧ playersOK [{ pSecond with active := false, eliminated := true }] := by
  constructor
  · exact C7_eliminated_not_active_invariant.2.1 [pActiveA, pInactiveB] 0 (by decide)
  · exact C7_eliminated_not_active_invariant.2.2 cfgInteractiveId 1 sDecline 0
      (Card.number 5) (sDeclineAfter, { alive := false, flip7 := false })
      (by decide) (by decide)


/-! ## Draw / recycle behaviour (C6) -/

lemma drawCard_nonempty (sh : List Card → List Card) (s : GameState)
    (hne : s.deckCards ≠ []) :
    ∃ c, s.deckCards.getLast? = some c
      ∧ Game.drawCard sh s = (some c, { s with deckCards := s.deckCards.dropLast }) := by
  unfold Game.drawCard
  cases hlast : s.deckCards.getLast? with
  | none => exact absurd (List.getLast?_eq_none_iff.mp hlast) hne
  | some c => exact ⟨c, rfl, rfl⟩

lemma drawCard_recycle (sh : List Card → List Card) (hperm : ∀ l, (sh l).Perm l)
    (s : GameState) (hdeck : s.deckCards = []) (hdisc : s.discardPile ≠ []) :
    ∃ c d', Game.drawCard sh s = (some c, { s with deckCards := d', discardPile := [] })
      ∧ (d' ++ [c]).Perm s.discardPile := by
  have hnd : sh s.discardPile ≠ [] := by
    intro h0
    have hp := hperm s.discardPile
    rw [h0] at hp
    exact hdisc hp.nil_eq.symm
  have hie : s.discardPile.isEmpty = false := by
    cases hdp : s.discardPile with
    | nil => exact absurd hdp hdisc
    | cons a t => rfl
  unfold Game.drawCard
  rw [hdeck]
  simp only [List.getLast?_nil, hie, Bool.false_eq_true, if_false]
  cases hlast : (sh s.discardPile).getLast? with
  | none => exact absurd (List.getLast?_eq_none_iff.mp hlast) hnd
  | some c =>
    refine ⟨c, (sh s.discardPile).dropLast, rfl, ?_⟩
    have heq : (sh s.discardPile).dropLast ++ [c] = sh s.discardPile :=
      List.dropLast_append_getLast? c (Option.mem_def.mpr hlast)
    rw [heq]
    exact hperm s.discardPile

lemma drawCard_exhausted (sh : List Card → List Card) (s : GameState)
    (hdeck : s.deckCards = []) (hdisc : s.discardPile = []) :
    Game.drawCard sh s = (none, s) := by
  unfold Game.drawCard
  rw [hdeck, hdisc]
  rfl

lemma hitStep_exhausted (cfg : Config) (fuel : Nat) (s : GameState) (pi : Nat)
    (hdeck : s.deckCards = []) (hdisc : s.discardPile = []) :
    Game.hitStep cfg fuel s pi
      = some (s.updPlayer pi (fun q => { q with active := false }), none) := by
  unfold Game.hitStep
  rw [drawCard_exhausted cfg.shuffle s hdeck hdisc]

/-- C6: the draw operation returns the top card when the draw pile is
non-empty; when the draw pile is empty and the discard pile is not, the
discard pile's contents become the new draw pile (the discard pile is
cleared, the new pile a shuffle-permutation of the old discard pile) and the
card is drawn from it; when both are empty drawing yields no card; and a
player whose hit finds no card is forced inactive rather than causing an
error. -/
theorem C6_draw_recycle :
    (∀ (sh : List Card → List Card) (s : GameState), s.deckCards ≠ [] →
        ∃ c, s.deckCards.getLast? = some c
          ∧ Game.drawCard sh s = (some c, { s with deckCards := s.deckCards.dropLast }))
      ∧ (∀ (sh : List Card → List Card), (∀ l, (sh l).Perm l) →
          ∀ s : GameState, s.deckCards = [] → s.discardPile ≠ [] →
          ∃ c d', Game.drawCard sh s = (some c, { s with deckCards := d', discardPile := [] })
            ∧ (d' ++ [c]).Perm s.discardPile)
      ∧ (∀ (sh : List Card → List Card) (s : GameState),
          s.deckCards = [] → s.discardPile = [] → Game.drawCard sh s = (none, s))
      ∧ (∀ (cfg : Config) (fuel : Nat) (s : GameState) (pi : Nat),
          s.deckCards = [] → s.discardPile = [] →
          Game.hitStep cfg fuel s pi
            = some (s.updPlayer pi (fun q => { q with active := false }), none)) :=
  ⟨drawCard_nonempty, drawCard_recycle, drawCard_exhausted, hitStep_exhausted⟩

/-- One-card draw pile state. -/
def sOneCard : GameState :=
  { players := [pActiveA]
    deckCards := [Card.number 7]
    discardPile := [Card.number 2]
    responses := [] }

/-- Empty-supply state. -/
def sDry : GameState :=
  { players := [pActiveA]
    deckCards := []
    discardPile := []
    responses := [] }

theorem C6_witness :
    (∃ c, sOneCard.deckCards.getLast? = some c
        ∧ Game.drawCard id sOneCard
            = (some c, { sOneCard with deckCards := sOneCard.deckCards.dropLast }))
      ∧ (∃ c d', Game.drawCard id { sOneCard with deckCards := [] }
            = (some c, { { sOneCard with deckCards := [] } with
                deckCards := d', discardPile := [] })
          ∧ (d' ++ [c]).Perm { sOneCard with deckCards := [] }.discardPile)
      ∧ Game.drawCard id sDry = (none, sDry)
      ∧ Game.hitStep cfgAutoId 1 sDry 0
          = some (sDry.updPlayer 0 (fun q => { q with active := false }), none) := by
  refine ⟨?_, ?_, ?_, ?_⟩
  · exact C6_draw_recycle.1 id sOneCard (by decide)
  · exact C6_draw_recycle.2.1 id (fun l => List.Perm.refl l)
      { sOneCard with deckCards := [] } rfl (by decide)
  · exact C6_draw_recycle.2.2.1 id sDry rfl rfl
  · exact C6_draw_recycle.2.2.2 cfgAutoId 1 sDry 0 rfl rfl

/-! ## The probabilistic advisor (src/Game.js, `computeAdviceForPlayer`)

JavaScript floating-point arithmetic is modelled with exact rationals; the
`toFixed` rounding applied to the *displayed* `pBustRaw`/`expectedHitScore`
fields is presentation-only in the source (the HIT/STAY comparison uses the
unrounded values) and is omitted here. -/

/-- The advisor's suggestion values. -/
inductive Suggestion where
  | HIT
  | STAY
deriving DecidableEq, Repr

/-- The `details` payload of an advice: the early empty-deck return carries
only `remainingCards: 0`; the full branch carries all fields. -/
inductive AdviceDetails where
  | emptyDeck (remainingCards : Nat)
  | full (remainingCards : Nat) (pBust : ℚ) (scoreStay : Nat) (expectedHitScore : ℚ)
      (numbersAlready : Nat)
deriving DecidableEq, Repr

/-- The advice record returned by `computeAdviceForPlayer`. -/
structure Advice where
  suggestion : Suggestion
  reason : String
  details : Option AdviceDetails
deriving DecidableEq, Repr

/-- The score computation at the end of `scoreAfterVirtualDraw` (src/Game.js
lines 286–291): sum of numbers, doubled by `x2`, plus the bonus, plus 15
when at least 7 numbers are held. -/
def virtualScore (numbers : List Nat) (hasX2 : Bool) (plusBonus : Nat) : Nat :=
  let sumNumbers := numbers.sum
  let doubled := if hasX2 then sumNumbers * 2 else sumNumbers
  let score := doubled + plusBonus
  if numbers.length ≥ 7 then score + 15 else score

/-- `scoreAfterVirtualDraw` (src/Game.js lines 256–292): the player's round
score after virtually applying one card to a throwaway copy of the state: a
duplicate with a second chance leaves the score unchanged, a duplicate
without one busts to 0, a new number joins the set, modifiers apply
normally. -/
def scoreAfterVirtualDraw (p : Player) (c : Card) : Nat :=
  match c with
  | Card.number v =>
      if p.numbers.contains v then
        if p.secondChance then virtualScore p.numbers p.hasX2 p.plusBonus else 0
      else virtualScore (p.numbers ++ [v]) p.hasX2 p.plusBonus
  | Card.modifier ModKind.x2 => virtualScore p.numbers true p.plusBonus
  | Card.modifier (ModKind.plus w) => virtualScore p.numbers p.hasX2 (p.plusBonus + w)
  | Card.action _ => virtualScore p.numbers p.hasX2 p.plusBonus

/-- `pBustRaw` (src/Game.js lines 252–254): probability of drawing a number
already held. -/
def pBustOf (l : List Card) (p : Player) : ℚ :=
  ((p.numbers.map (fun n => cntNumber l n)).sum : ℚ) / (l.length : ℚ)

/-- The accumulation of `expectedHitScore` (src/Game.js lines 294–311): one
weighted term per distinct remaining number value, one for the `x2`
modifier when present, one per distinct remaining `+v` modifier, and one for
the pooled action cards (score-neutral, weighted by `scoreStay`). -/
def adviceExpectedHit (l : List Card) (p : Player) : ℚ :=
  ((numVals l).dedup.map
      (fun v => (cntNumber l v : ℚ) / (l.length : ℚ)
        * (scoreAfterVirtualDraw p (Card.number v) : ℚ))).sum
    + (if 0 < cntX2 l then
        (cntX2 l : ℚ) / (l.length : ℚ)
          * (scoreAfterVirtualDraw p (Card.modifier ModKind.x2) : ℚ)
      else 0)
    + ((plusVals l).dedup.map
        (fun w => (cntPlus l w : ℚ) / (l.length : ℚ)
          * (scoreAfterVirtualDraw p (Card.modifier (ModKind.plus w)) : ℚ))).sum
    + (if 0 < cntAction l then
        (cntAction l : ℚ) / (l.length : ℚ) * (p.computeRoundScore false : ℚ)
      else 0)

/-- `Game.computeAdviceForPlayer` (src/Game.js lines 220–329): STAY for an
eliminated or inactive player; STAY when no card remains; otherwise HIT
exactly when the one-step expectation strictly exceeds the stay score. -/
def Game.computeAdviceForPlayer (l : List Card) (p : Player) : Advice :=
  if p.eliminated || !p.active then
    { suggestion := Suggestion.STAY
      reason := "Joueur inactif/éliminé."
      details := none }
  else if l.length = 0 then
    { suggestion := Suggestion.STAY
      reason := "Plus de cartes restantes dans la pioche."
      details := some (AdviceDetails.emptyDeck 0) }
  else
    let scoreStay := p.computeRoundScore false
    let expected := adviceExpectedHit l p
    let sug := if (scoreStay : ℚ) < expected then Suggestion.HIT else Suggestion.STAY
    { suggestion := sug
      reason := if sug = Suggestion.HIT then "Espérance de score > score actuel."
        else "Risque / espérance : rester est mieux ou égal."
      details := some (AdviceDetails.full l.length (pBustOf l p) scoreStay expected
        p.numbers.length) }

/-- The advisory query at engine level: it reads `this.deck.cards` and the
player object and performs no assignment — the state component is returned
untouched (the source body, lines 220–329, contains no write to `p`, to
`this.deck`, or to `this.discardPile`). -/
def Game.computeAdviceStep (s : GameState) (pi : Nat) : GameState × Advice :=
  (s, Game.computeAdviceForPlayer s.deckCards (s.players.getD pi defaultPlayer))

/-- C5: the advisory operation returns STAY for an eliminated or inactive
player, STAY when the deck is empty, and otherwise suggests HIT exactly when
the computed one-step expectation strictly exceeds the stay score (a tie
yields STAY). -/
theorem C5_advice_suggestion (l : List Card) (p : Player) :
    ((p.eliminated = true ∨ p.active = false) →
        (Game.computeAdviceForPlayer l p).suggestion = Suggestion.STAY)
      ∧ (l.length = 0 → (Game.computeAdviceForPlayer l p).suggestion = Suggestion.STAY)
      ∧ (p.eliminated = false → p.active = true → l.length ≠ 0 →
          ((Game.computeAdviceForPlayer l p).suggestion = Suggestion.HIT
            ↔ (p.computeRoundScore false : ℚ) < adviceExpectedHit l p)) := by
  refine ⟨?_, ?_, ?_⟩
  · intro hor
    unfold Game.computeAdviceForPlayer
    have hcond : (p.eliminated || !p.active) = true := by
      rcases hor with h | h <;> simp [h]
    rw [if_pos hcond]
  · intro hlen
    unfold Game.computeAdviceForPlayer
    by_cases hcond : (p.eliminated || !p.active) = true
    · rw [if_pos hcond]
    · rw [if_neg hcond, if_pos hlen]
  · intro helim hact hlen
    unfold Game.computeAdviceForPlayer
    have hcond : ¬ ((p.eliminated || !p.active) = true) := by
      simp [helim, hact]
    rw [if_neg hcond, if_neg hlen]
    by_cases hgt : (p.computeRoundScore false : ℚ) < adviceExpectedHit l p
    · simp [hgt]
    · simp [hgt]

/-- An eliminated and inactive player. -/
def pElim : Player := { defaultPlayer with name := "E", active := false, eliminated := true }

theorem C5_witness :
    (Game.computeAdviceForPlayer [Card.number 3] pElim).suggestion = Suggestion.STAY
      ∧ (Game.computeAdviceForPlayer [] pActiveA).suggestion = Suggestion.STAY
      ∧ ((Game.computeAdviceForPlayer [Card.number 3] pActiveA).suggestion = Suggestion.HIT
          ↔ (pActiveA.computeRoundScore false : ℚ)
              < adviceExpectedHit [Card.number 3] pActiveA) := by
  refine ⟨?_, ?_, ?_⟩
  · exact (C5_advice_suggestion [Card.number 3] pElim).1 (by decide)
  · exact (C5_advice_suggestion [] pActiveA).2.1 (by decide)
  · exact (C5_advice_suggestion [Card.number 3] pActiveA).2.2 (by decide) (by decide)
      (by decide)

/-- C8: the advisory query is pure — the game state it returns is the input
state unchanged (players, deck sequence, discard pile, pending responses),
its advice depends only on the deck card list and the queried player's
round state, and invoking it again on the returned state yields the same
advice. -/
theorem C8_advice_pure :
    ∀ (s : GameState) (pi : Nat),
      (Game.computeAdviceStep s pi).1 = s
        ∧ (Game.computeAdviceStep s pi).2
            = Game.computeAdviceForPlayer s.deckCards (s.players.getD pi defaultPlayer)
        ∧ (Game.computeAdviceStep ((Game.computeAdviceStep s pi).1) pi).2
            = (Game.computeAdviceStep s pi).2 :=
  fun s pi => ⟨rfl, rfl, rfl⟩

/-! ## Advisory weights sum to 1 (C9) -/

/-- The total probability mass the advisor distributes over the four term
families of `adviceExpectedHit`: number values by distinct value, the `x2`
modifier, the `+v` modifiers by distinct value, and the pooled actions —
with the same presence guards as the source. -/
def adviceWeightSum (l : List Card) : ℚ :=
  ((numVals l).dedup.map (fun v => (cntNumber l v : ℚ) / (l.length : ℚ))).sum
    + (if 0 < cntX2 l then (cntX2 l : ℚ) / (l.length : ℚ) else 0)
    + ((plusVals l).dedup.map (fun w => (cntPlus l w : ℚ) / (l.length : ℚ))).sum
    + (if 0 < cntAction l then (cntAction l : ℚ) / (l.length : ℚ) else 0)

lemma cntNumber_eq_count (l : List Card) (v : Nat) :
    cntNumber l v = (numVals l).count v := by
  induction l with
  | nil => rfl
  | cons c t ih =>
    cases c with
    | number w =>
      simp only [cntNumber, numVals, List.count_cons, ih]
      by_cases hvw : v = w
      · subst hvw; simp
      · have h2 : ¬ w = v := fun h => hvw h.symm
        simp [hvw, h2]
    | action a => simp only [cntNumber, numVals, ih]
    | modifier m => simp only [cntNumber, numVals, ih]

lemma cntPlus_eq_count (l : List Card) (w : Nat) :
    cntPlus l w = (plusVals l).count w := by
  induction l with
  | nil => rfl
  | cons c t ih =>
    cases c with
    | number v => simp only [cntPlus, plusVals, ih]
    | action a => simp only [cntPlus, plusVals, ih]
    | modifier m =>
      cases m with
      | x2 => simp only [cntPlus, plusVals, ih]
      | plus u =>
        simp only [cntPlus, plusVals, List.count_cons, ih]
        by_cases hwu : w = u
        · subst hwu; simp
        · have h2 : ¬ u = w := fun h => hwu h.symm
          simp [hwu, h2]

lemma counts_partition (l : List Card) :
    (numVals l).length + cntX2 l + (plusVals l).length + cntAction l = l.length := by
  induction l with
  | nil => rfl
  | cons c t ih =>
    cases c with
    | number v =>
      simp only [numVals, plusVals, cntX2, cntAction, List.length_cons]
      omega
    | action a =>
      simp only [numVals, plusVals, cntX2, cntAction, List.length_cons]
      omega
    | modifier m =>
      cases m with
      | x2 =>
        simp only [numVals, plusVals, cntX2, cntAction, List.length_cons]
        omega
      | plus u =>
        simp only [numVals, plusVals, cntX2, cntAction, List.length_cons]
        omega

lemma sum_map_natdiv (m : List Nat) (g : Nat → Nat) (N : ℚ) :
    (m.map (fun v => ((g v : Nat) : ℚ) / N)).sum = (((m.map g).sum : Nat) : ℚ) / N := by
  induction m with
  | nil => simp
  | cons a t ih =>
    simp only [List.map_cons, List.sum_cons, ih]
    rw [div_add_div_same]
    push_cast
    ring

lemma ifdiv_guard (n : Nat) (N : ℚ) :
    (if 0 < n then (n : ℚ) / N else 0) = (n : ℚ) / N := by
  by_cases h : 0 < n
  · rw [if_pos h]
  · have h0 : n = 0 := by omega
    simp [h0]

/-- C9: for every non-empty deck snapshot the probability weights the
advisor assigns — number counts by distinct value, the `x2` modifier count,
the `+v` modifier counts by distinct value, and the pooled action count,
each divided by the remaining count — sum exactly to 1. -/
theorem C9_weights_sum_one (l : List Card) (hne : l ≠ []) : adviceWeightSum l = 1 := by
  have hlenN : l.length ≠ 0 := fun h => hne (List.length_eq_zero.mp h)
  have hlen : (l.length : ℚ) ≠ 0 := by exact_mod_cast hlenN
  unfold adviceWeightSum
  rw [ifdiv_guard, ifdiv_guard]
  simp only [cntNumber_eq_count, cntPlus_eq_count]
  rw [sum_map_natdiv ((numVals l).dedup) (fun v => (numVals l).count v) (l.length : ℚ)]
  rw [sum_map_natdiv ((plusVals l).dedup) (fun w => (plusVals l).count w) (l.length : ℚ)]
  rw [List.sum_map_count_dedup_eq_length, List.sum_map_count_dedup_eq_length]
  rw [div_add_div_same, div_add_div_same, div_add_div_same]
  rw [show ((numVals l).length : ℚ) + (cntX2 l : ℚ) + ((plusVals l).length : ℚ)
        + (cntAction l : ℚ) = ((l.length : Nat) : ℚ) from by
    push_cast [← counts_partition l]
    ring]
  exact div_self hlen

theorem C9_witness :
    ([Card.number 3] : List Card) ≠ [] ∧ adviceWeightSum [Card.number 3] = 1 :=
  ⟨by decide, C9_weights_sum_one [Card.number 3] (by decide)⟩

end Flip7
